import Mathlib

/-!
# translate-rfc5102: the IPFIX registry generator

A shallow embedding of `translate/cmd/translate-rfc5102/main.go`.

* Go strings are byte sequences (`GoString`); string literals are written
  through `go`, which encodes a Lean string as UTF-8.
* `fmt.Fprintf` is embedded by `Sprintf`, `strings.TrimSpace` and
  `strings.ToUpper` by functions of the same names (standard library,
  embedded from its documented behaviour and implementation).
* The text the generator writes is `generatedText`; the Go code inside
  that text (the `init` function) is embedded a second time as the
  function it denotes: `Statement.exec` for a registration statement and
  `reverseSynthesis` for the `for k, v := range builtin` loop.
* The file system touched by `main` is an explicit state.
-/

namespace Rfc5102

set_option maxRecDepth 10000

/-! ## Go strings -/

/-- A Go `string`: an immutable sequence of bytes. -/
abbrev GoString := List (Fin 256)

/-- A Go `rune` (a Unicode code point held in an integer). -/
abbrev Rune := Nat

/-- UTF-8 encoding of one Unicode scalar value. -/
def encodeChar (c : Char) : GoString :=
  let n := c.toNat
  if n < 0x80 then [Fin.ofNat n]
  else if n < 0x800 then [Fin.ofNat (0xC0 + n / 64), Fin.ofNat (0x80 + n % 64)]
  else if n < 0x10000 then
    [Fin.ofNat (0xE0 + n / 4096), Fin.ofNat (0x80 + n / 64 % 64), Fin.ofNat (0x80 + n % 64)]
  else
    [Fin.ofNat (0xF0 + n / 262144), Fin.ofNat (0x80 + n / 4096 % 64),
     Fin.ofNat (0x80 + n / 64 % 64), Fin.ofNat (0x80 + n % 64)]

/-- The Go string denoted by a string literal: its UTF-8 bytes. -/
def go (s : String) : GoString :=
  s.data.foldr (fun c acc => encodeChar c ++ acc) []

/-- `utf8.RuneError`, the replacement character U+FFFD. -/
def RuneError : Rune := 0xFFFD

/-- The tables `first` and `acceptRanges` of package `unicode/utf8`: for a
leading byte of a multi-byte sequence, the length of the sequence and the
range the second byte must lie in; `none` for a byte that starts no
sequence. -/
def leadingByte (b : Fin 256) : Option (Nat × Nat × Nat) :=
  let n := b.val
  if 0xC2 ≤ n ∧ n ≤ 0xDF then some (2, 0x80, 0xBF)
  else if n = 0xE0 then some (3, 0xA0, 0xBF)
  else if 0xE1 ≤ n ∧ n ≤ 0xEC then some (3, 0x80, 0xBF)
  else if n = 0xED then some (3, 0x80, 0x9F)
  else if 0xEE ≤ n ∧ n ≤ 0xEF then some (3, 0x80, 0xBF)
  else if n = 0xF0 then some (4, 0x90, 0xBF)
  else if 0xF1 ≤ n ∧ n ≤ 0xF3 then some (4, 0x80, 0xBF)
  else if n = 0xF4 then some (4, 0x80, 0x8F)
  else none

/-- A continuation byte, `0x80 .. 0xBF`. -/
def isCont (b : Fin 256) : Bool := 0x80 ≤ b.val && b.val ≤ 0xBF

/-- `utf8.DecodeRuneInString`: the first rune of `s` and its width in bytes;
`(RuneError, 0)` for the empty string and `(RuneError, 1)` for an invalid
encoding. -/
def DecodeRuneInString : GoString → Rune × Nat
  | [] => (RuneError, 0)
  | s0 :: rest =>
    if s0.val < 0x80 then (s0.val, 1)
    else
      match leadingByte s0 with
      | none => (RuneError, 1)
      | some (sz, lo, hi) =>
        if rest.length + 1 < sz then (RuneError, 1)
        else
          match rest with
          | [] => (RuneError, 1)
          | s1 :: r1 =>
            if s1.val < lo ∨ hi < s1.val then (RuneError, 1)
            else if sz ≤ 2 then (s0.val % 32 * 64 + s1.val % 64, 2)
            else
              match r1 with
              | [] => (RuneError, 1)
              | s2 :: r2 =>
                if !isCont s2 then (RuneError, 1)
                else if sz ≤ 3 then
                  (s0.val % 16 * 4096 + s1.val % 64 * 64 + s2.val % 64, 3)
                else
                  match r2 with
                  | [] => (RuneError, 1)
                  | s3 :: _ =>
                    if !isCont s3 then (RuneError, 1)
                    else
                      (s0.val % 8 * 262144 + s1.val % 64 * 4096 + s2.val % 64 * 64
                        + s3.val % 64, 4)

/-- `utf8.RuneStart`: the byte is not a continuation byte. -/
def RuneStart (b : Fin 256) : Bool := !isCont b

/-- The backward scan of `utf8.DecodeLastRuneInString`: from `start` down to
`lim`, stop at the first byte that can start a rune. At most `UTFMax`
positions are looked at. -/
def scanBack (s : GoString) (lim : Int) : Nat → Int → Int
  | 0, start => start
  | n + 1, start =>
    if start ≥ lim then
      if RuneStart (s.getD start.toNat 0) then start else scanBack s lim n (start - 1)
    else start

/-- `utf8.DecodeLastRuneInString`: the last rune of `s` and its width. -/
def DecodeLastRuneInString (s : GoString) : Rune × Nat :=
  let e : Int := s.length
  if s.length = 0 then (RuneError, 0)
  else
    let last := s.getD (s.length - 1) 0
    if last.val < 0x80 then (last.val, 1)
    else
      let lim : Int := if e - 4 < 0 then 0 else e - 4
      let start0 := scanBack s lim 4 (e - 2)
      let start : Nat := if start0 < 0 then 0 else start0.toNat
      let (r, size) := DecodeRuneInString (s.drop start)
      if start + size ≠ s.length then (RuneError, 1) else (r, size)

/-- `unicode.IsSpace`: the code points with the Unicode White_Space
property. -/
def IsSpace (r : Rune) : Bool :=
  if r ≤ 0xFF then
    r = 0x09 || r = 0x0A || r = 0x0B || r = 0x0C || r = 0x0D || r = 0x20 || r = 0x85 || r = 0xA0
  else
    r = 0x1680 || (0x2000 ≤ r && r ≤ 0x200A) || r = 0x2028 || r = 0x2029 || r = 0x202F
      || r = 0x205F || r = 0x3000

/-- The table `asciiSpace` of package `strings`. -/
def asciiSpace (c : Fin 256) : Bool :=
  c.val = 0x09 || c.val = 0x0A || c.val = 0x0B || c.val = 0x0C || c.val = 0x0D || c.val = 0x20

/-- The loop of `strings.TrimLeftFunc`: drop leading runes satisfying `f`.
The first argument bounds the number of iterations; `TrimLeftFunc` passes
the length of the string, and every iteration consumes at least one byte. -/
def trimLeftLoop (f : Rune → Bool) : Nat → GoString → GoString
  | 0, _ => []
  | n + 1, s =>
    match s with
    | [] => []
    | _ :: _ =>
      if f (DecodeRuneInString s).1 then trimLeftLoop f n (s.drop (DecodeRuneInString s).2)
      else s

/-- `strings.TrimLeftFunc`. -/
def TrimLeftFunc (s : GoString) (f : Rune → Bool) : GoString :=
  trimLeftLoop f s.length s

/-- The loop of `strings.lastIndexFunc(s, f, false)`: the index of the last
rune not satisfying `f`, `none` for Go's `-1`. -/
def lastIndexLoop (f : Rune → Bool) (s : GoString) : Nat → Nat → Option Nat
  | 0, _ => none
  | n + 1, i =>
    if i = 0 then none
    else
      let d := DecodeLastRuneInString (s.take i)
      if f d.1 then lastIndexLoop f s n (i - d.2) else some (i - d.2)

/-- `strings.TrimRightFunc`. -/
def TrimRightFunc (s : GoString) (f : Rune → Bool) : GoString :=
  match lastIndexLoop f s s.length s.length with
  | none => s.take 0
  | some i =>
    if (s.getD i 0).val ≥ 0x80 then s.take (i + (DecodeRuneInString (s.drop i)).2)
    else s.take (i + 1)

/-- `strings.TrimFunc`. -/
def TrimFunc (s : GoString) (f : Rune → Bool) : GoString :=
  TrimRightFunc (TrimLeftFunc s f) f

/-- The second loop of `strings.TrimSpace`, on the reversed remainder:
drop trailing ASCII space, falling back to `TrimRightFunc` at the first
non-ASCII byte. -/
def trimSpaceTail : GoString → GoString
  | [] => []
  | c :: rest =>
    if c.val ≥ 0x80 then TrimRightFunc (c :: rest).reverse IsSpace
    else if asciiSpace c then trimSpaceTail rest
    else (c :: rest).reverse

/-- `strings.TrimSpace`: `s` without leading and trailing white space, as
defined by Unicode. -/
def TrimSpace : GoString → GoString
  | [] => []
  | c :: rest =>
    if c.val ≥ 0x80 then TrimFunc (c :: rest) IsSpace
    else if asciiSpace c then TrimSpace rest
    else trimSpaceTail (c :: rest).reverse

/-- ASCII upper-casing of one byte: `a..z` become `A..Z`. -/
def asciiUpper (c : Fin 256) : Fin 256 :=
  if 0x61 ≤ c.val ∧ c.val ≤ 0x7A then Fin.ofNat (c.val - 32) else c

/-- `strings.ToUpper` on the strings this program passes to it, which are
single bytes (`v.Name[0:1]`): an ASCII byte is upper-cased; a byte
`≥ 0x80` standing alone is not valid UTF-8, and `strings.Map` replaces it
by the encoding of `utf8.RuneError`. Exact for every string in which no
byte `≥ 0x80` is part of a valid multi-byte sequence. -/
def ToUpper (s : GoString) : GoString :=
  s.foldr (fun c acc => (if c.val < 0x80 then [asciiUpper c] else [0xEF, 0xBF, 0xBD]) ++ acc) []

/-- A Go slice expression `s[lo:hi]` on a string; `none` is the run-time
panic "slice bounds out of range". -/
def slice (s : GoString) (lo hi : Nat) : Option GoString :=
  if lo ≤ hi ∧ hi ≤ s.length then some ((s.take hi).drop lo) else none

/-! ## fmt.Fprintf -/

/-- The tail `%!(EXTRA string=a, string=b)` that `fmt` appends for operands
left over when the format is used up. -/
def extraOperands : List GoString → GoString
  | [] => []
  | a :: rest =>
    go "%!(EXTRA string=" ++ a ++
      rest.foldr (fun b acc => go ", string=" ++ b ++ acc) [] ++ go ")"

/-- The text `fmt.Fprintf(w, format, args...)` writes, for string operands.
The verbs are `%s` (the next operand, verbatim) and `%%`; these are the
only ones in this program's formats. -/
def Sprintf : GoString → List GoString → GoString
  | [], args => extraOperands args
  | [c], args => (if c.val = 0x25 then go "%!(NOVERB)" else [c]) ++ extraOperands args
  | c :: d :: fmt, args =>
    if c.val = 0x25 ∧ d.val = 0x73 then
      match args with
      | a :: rest => a ++ Sprintf fmt rest
      | [] => go "%!s(MISSING)" ++ Sprintf fmt []
    else if c.val = 0x25 ∧ d.val = 0x25 then d :: Sprintf fmt args
    else c :: Sprintf (d :: fmt) args

/-! ## The registry document -/

/-- The constant `ipfixURL`. -/
def ipfixURL : GoString := go "http://www.iana.org/assignments/ipfix/ipfix.xml"

/-- The struct `ipfixRecord`: one `record` element of the registry. -/
structure ipfixRecord where
  Name : GoString
  ElementID : GoString
  DataType : GoString
deriving DecidableEq

/-- The struct `ipfixRegistry`: one nested `registry` element. -/
structure ipfixRegistry where
  ID : GoString
  Record : List ipfixRecord
deriving DecidableEq

/-- The struct `ipfixRegistryRoot`: the decoded document (the `XMLName`
field, which only names the root element, is left out). -/
structure ipfixRegistryRoot where
  ID : GoString
  Title : GoString
  Registries : List ipfixRegistry
deriving DecidableEq

/-- How a call ends: it returns a value, or the process exits with a status
(`os.Exit`, also through `log.Fatalf` and `log.Fatalln`, which exit with
status 1). -/
inductive Ends (α : Type) where
  | returns (a : α)
  | exits (status : Nat)
deriving DecidableEq

/-- What `http.Get(ipfixURL)` followed by the XML decoder gives in one run:
a transport error, a decoding error, or the decoded document. -/
inductive Download where
  | getError
  | decodeError
  | decoded (result : ipfixRegistryRoot)
deriving DecidableEq

/-- The loop of `getIpfixRecords` over `result.Registries`, and the
`log.Fatalln` that follows it. -/
def findIpfixRegistry : List ipfixRegistry → Ends (List ipfixRecord)
  | [] => Ends.exits 1
  | r :: rest =>
    if r.ID = go "ipfix-information-elements" then Ends.returns r.Record
    else findIpfixRegistry rest

/-- The function `getIpfixRecords`, on the outcome of the download. -/
def getIpfixRecords : Download → Ends (List ipfixRecord)
  | Download.getError => Ends.exits 1
  | Download.decodeError => Ends.exits 1
  | Download.decoded result => findIpfixRegistry result.Registries

/-! ## The generated text -/

/-- The operands of one execution of the `fmt.Fprintf` that writes a
registration statement: the texts put in for the field ID (twice), the name
and the type. -/
structure Statement where
  FieldID : GoString
  Name : GoString
  /-- The operand for `Type`; that word is reserved in Lean. -/
  Typ : GoString
deriving DecidableEq

/-- The format of a registration statement. -/
def statementFormat : GoString :=
  go ("\tbuiltin[Key\x7b0, %s\x7d] = InformationElementEntry\x7bFieldID: %s, " ++
    "Name: \"%s\", Type: FieldTypes[\"%s\"]\x7d\n")

/-- The line one registration statement contributes to the file. -/
def Statement.text (s : Statement) : GoString :=
  Sprintf statementFormat [s.FieldID, s.FieldID, s.Name, s.Typ]

/-- The loop `for _, r := range records` of `createIpfixRegistry`: the
registration statements written, in the order written. -/
def registrationLoop : List ipfixRecord → List Statement
  | [] => []
  | r :: rest =>
    if r.Name = [] ∨ r.DataType = [] ∨ r.ElementID = [] then registrationLoop rest
    else
      { FieldID := TrimSpace r.ElementID, Name := TrimSpace r.Name,
        Typ := TrimSpace r.DataType } :: registrationLoop rest

/-- The guard of the loop, negated: the record is not skipped. It compares
the fields as decoded, before any trimming, with the empty string. -/
def passesGuard (r : ipfixRecord) : Bool :=
  decide (¬ (r.Name = [] ∨ r.DataType = [] ∨ r.ElementID = []))

/-- The operands of the `fmt.Fprintf` in the loop body for the record `r`. -/
def statementOf (r : ipfixRecord) : Statement :=
  { FieldID := TrimSpace r.ElementID, Name := TrimSpace r.Name, Typ := TrimSpace r.DataType }

/-- The format of the file header. -/
def headerFormat : GoString :=
  go ("package translate\n" ++
    "\n" ++
    "// Autogenerated %s\n" ++
    "\n" ++
    "import \"strings\"\n" ++
    "\n" ++
    "// Reverse Information Element Private Enterprise Number (RFC 5103)\n" ++
    "const reversePEN = 29305\n" ++
    "\n" ++
    "// IANA Assigned (RFC 5102), see %s")

/-- The fixed text that ends the file: the reverse-synthesis loop and the
closing brace of `init`. -/
def reverseBlockFormat : GoString :=
  go ("\n" ++
    "\t// This implements RFC 5103 Bidirectional Flow Export Using IP Flow\n" ++
    "\t// Information Export (IPFIX) supporting Reverse Informatio Elements.\n" ++
    "\tfor k, v := range builtin \x7b\n" ++
    "\t\tif k.EnterpriseID != 0 \x7b\n" ++
    "\t\t\tcontinue\n" ++
    "\t\t\x7d\n" ++
    "\n" ++
    "\t\tswitch k.FieldID \x7b\n" ++
    "\t\tcase 148, 145, 149, 137:\n" ++
    "\t\t\t// Not reversible: flowId, templateId, observationDomainId, and\n" ++
    "\t\t\t// commonPropertiesId\n" ++
    "\n" ++
    "\t\tcase 130, 131, 217, 211, 212, 213, 214, 215, 216, 173:\n" ++
    "\t\t\t// Not reversible: process configuration elements defined in\n" ++
    "\t\t\t// Section 5.2 of RFC5102.\n" ++
    "\n" ++
    "\t\tcase 41, 40, 42, 163, 164, 165, 166, 167, 168:\n" ++
    "\t\t\t// Not reversible: process statistics elements defined in Section\n" ++
    "\t\t\t// 5.3 of RFC5102.\n" ++
    "\n" ++
    "\t\tcase 210:\n" ++
    "\t\t\t// Not reversible: paddingOctets\n" ++
    "\n" ++
    "\t\tdefault:\n" ++
    "\t\t\t// Reversible\n" ++
    "\t\t\tv.Name = \"reverse\" + strings.ToUpper(v.Name[0:1]) + v.Name[1:]\n" ++
    "\t\t\tv.EnterpriseID = reversePEN\n" ++
    "\t\t\tk.EnterpriseID = reversePEN\n" ++
    "\t\t\tbuiltin[k] = v\n" ++
    "\t\t\x7d\n" ++
    "\t\x7d\n" ++
    "\x7d\n")

/-- The text of all registration statements, in order. -/
def statementsText : List Statement → GoString
  | [] => []
  | s :: rest => s.text ++ statementsText rest

/-- Everything `createIpfixRegistry` writes to the output file, in the
order of its `fmt.Fprintf` calls; `now` is
`time.Now().Format(time.UnixDate)`. -/
def generatedText (now : GoString) (records : List ipfixRecord) : GoString :=
  Sprintf headerFormat [now, ipfixURL] ++
    (Sprintf (go "\nfunc init() \x7b\n") [] ++
      (statementsText (registrationLoop records) ++ Sprintf reverseBlockFormat []))

/-! ## The file system and `main` -/

/-- The part of the file system the program can touch: the content of each
path that holds a file, and the paths on which
`os.OpenFile(_, O_WRONLY|O_CREATE|O_TRUNC, 0644)` fails. The diagnostics
written to standard error are not part of the state. -/
structure FileSystem where
  files : GoString → Option GoString
  unopenable : GoString → Bool

/-- The file system after `path` was created or truncated and `content`
written to it. -/
def FileSystem.write (fs : FileSystem) (path content : GoString) : FileSystem :=
  { fs with files := fun p => if p = path then some content else fs.files p }

/-- The function `createIpfixRegistry`: open (create, truncate) the output
file, or exit through `log.Fatalf`; then write the generated text. -/
def createIpfixRegistry (output : GoString) (records : List ipfixRecord) (now : GoString)
    (fs : FileSystem) : Ends Unit × FileSystem :=
  if fs.unopenable output then (Ends.exits 1, fs)
  else (Ends.returns (), fs.write output (generatedText now records))

/-- The function `main`: `output` is the value of the `--output` flag, `d`
the outcome of the download, `now` the formatted time. The result is the
exit status of the process and the file system it leaves. The operand
`getIpfixRecords()` is evaluated before `createIpfixRegistry` is called. -/
def main (output : GoString) (d : Download) (now : GoString) (fs : FileSystem) :
    Nat × FileSystem :=
  if output = [] then (1, fs)
  else
    match getIpfixRecords d with
    | Ends.exits status => (status, fs)
    | Ends.returns records =>
      match createIpfixRegistry output records now fs with
      | (Ends.exits status, fs1) => (status, fs1)
      | (Ends.returns _, fs1) => (0, fs1)

/-! ## The generated `init` function

The generated file belongs to the library package `translate`, which
declares `Key`, `InformationElementEntry`, `builtin` and `FieldTypes`. -/

/-- Modelled from the spec: the declaration of `Key` is in the library
package, not in this program. A table is "keyed by (enterpriseID, numeric
field ID)", and the generated code writes `Key{0, id}` and reads
`k.EnterpriseID`, `k.FieldID`. -/
structure Key where
  EnterpriseID : Nat
  FieldID : Nat
deriving DecidableEq

/-- Modelled from the spec: the values of the external type-name table
`FieldTypes`; only their identity matters here. -/
abbrev FieldType := Nat

/-- Modelled from the spec: the declaration of `InformationElementEntry` is
in the library package. The fields are those the generated code names:
`FieldID`, `Name`, `Type` in the registration statement and `EnterpriseID`
in the reverse-synthesis loop. A field a composite literal leaves out is
zero. -/
structure InformationElementEntry where
  FieldID : Nat
  Name : GoString
  /-- The field `Type`; that word is reserved in Lean. -/
  Typ : FieldType
  EnterpriseID : Nat
deriving DecidableEq

/-- The map `builtin`: the entry stored under each key, if any. -/
abbrev Table := Key → Option InformationElementEntry

/-- The map with no entry. -/
def Table.empty : Table := fun _ => none

/-- The assignment `builtin[k] = v`. -/
def Table.insert (t : Table) (k : Key) (v : InformationElementEntry) : Table :=
  fun q => if q = k then some v else t q

/-- The constant `reversePEN` of the generated file. -/
def reversePEN : Nat := 29305

/-- The value of a decimal integer literal (`0`, or digits not starting
with `0`); `none` for any other text. -/
def decimalLit (s : GoString) : Option Nat :=
  match s with
  | [] => none
  | c :: rest =>
    if (c :: rest).all (fun b => 0x30 ≤ b.val && b.val ≤ 0x39) && (c.val ≠ 0x30 || rest.isEmpty)
    then some ((c :: rest).foldl (fun acc b => 10 * acc + (b.val - 0x30)) 0)
    else none

/-- Text that denotes itself between the double quotes of a Go string
literal: printable ASCII without `"` and `\`. -/
def plainText (s : GoString) : Bool :=
  s.all (fun b => 0x20 ≤ b.val && b.val ≤ 0x7E && b.val ≠ 0x22 && b.val ≠ 0x5C)

/-- The effect of one generated registration statement
`builtin[Key{0, id}] = InformationElementEntry{FieldID: id, Name: "name",
Type: FieldTypes["type"]}` on the table. `none` when the statement is
outside the Go fragment covered here: `id` is not a decimal literal, or
`name` or `type` is not plain text. `FieldTypes` is the library's table; a
Go map yields the zero value for a missing key, so it is a total function. -/
def Statement.exec (FieldTypes : GoString → FieldType) (builtin : Table) (s : Statement) :
    Option Table :=
  match decimalLit s.FieldID with
  | none => none
  | some n =>
    if plainText s.Name && plainText s.Typ then
      some (builtin.insert { EnterpriseID := 0, FieldID := n }
        { FieldID := n, Name := s.Name, Typ := FieldTypes s.Typ, EnterpriseID := 0 })
    else none

/-- The registration statements of `init`, executed in order. -/
def execStatements (FieldTypes : GoString → FieldType) : Table → List Statement → Option Table
  | builtin, [] => some builtin
  | builtin, s :: rest =>
    match s.exec FieldTypes builtin with
    | none => none
    | some t => execStatements FieldTypes t rest

/-- How the reverse-synthesis loop ends: it runs to completion, or an
iteration panics (a slice expression out of range); either way with the
table as it then stands. A panic in `init` ends the program. -/
inductive Run where
  | done (builtin : Table)
  | panicked (builtin : Table)

/-- The table when the loop ended. -/
def Run.table : Run → Table
  | Run.done t => t
  | Run.panicked t => t

/-- The table the loop leaves to the program: none after a panic. -/
def Run.completed : Run → Option Table
  | Run.done t => some t
  | Run.panicked _ => none

/-- The body of the generated loop `for k, v := range builtin`, for one
pair `k`, `v` the `range` clause produces. -/
def reverseBody (builtin : Table) (k : Key) (v : InformationElementEntry) : Run :=
  if k.EnterpriseID ≠ 0 then Run.done builtin
  else if k.FieldID ∈ [148, 145, 149, 137] then Run.done builtin
  else if k.FieldID ∈ [130, 131, 217, 211, 212, 213, 214, 215, 216, 173] then Run.done builtin
  else if k.FieldID ∈ [41, 40, 42, 163, 164, 165, 166, 167, 168] then Run.done builtin
  else if k.FieldID = 210 then Run.done builtin
  else
    match slice v.Name 0 1 with
    | none => Run.panicked builtin
    | some head =>
      match slice v.Name 1 v.Name.length with
      | none => Run.panicked builtin
      | some tail =>
        Run.done (builtin.insert { k with EnterpriseID := reversePEN }
          { v with Name := go "reverse" ++ ToUpper head ++ tail, EnterpriseID := reversePEN })

/-- The generated loop `for k, v := range builtin`. Go leaves the order of
a `range` over a map open, and an entry inserted during the loop may or may
not be produced; `order` is the sequence of keys this run of the loop
reaches. A key is produced with the value stored under it at that moment;
a key with no entry produces nothing. -/
def reverseSynthesis : Table → List Key → Run
  | builtin, [] => Run.done builtin
  | builtin, k :: rest =>
    match builtin k with
    | none => reverseSynthesis builtin rest
    | some v =>
      match reverseBody builtin k v with
      | Run.done t => reverseSynthesis t rest
      | Run.panicked t => Run.panicked t

/-- The order reaches every entry the table holds when the loop starts, as
Go guarantees for entries that are not removed. -/
def Covers (builtin : Table) (order : List Key) : Prop :=
  ∀ k, (builtin k).isSome → k ∈ order

/-- The field IDs the specification lists as not reversible. -/
def exclusionSet : List Nat :=
  [148, 145, 149, 137, 130, 131, 217, 211, 212, 213, 214, 215, 216, 173,
   41, 40, 42, 163, 164, 165, 166, 167, 168, 210]

/-- The name the specification gives a mirrored entry: the word `reverse`,
then the original name with its first character, an ASCII one, in upper
case. -/
def reverseName : GoString → GoString
  | [] => go "reverse"
  | c :: rest => go "reverse" ++ (asciiUpper c :: rest)

/-! ## The reverse-synthesis loop in closed form -/

/-- The entry the default case of the loop body stores for `v`. -/
def mirror (v : InformationElementEntry) : InformationElementEntry :=
  { v with Name := go "reverse" ++ ToUpper (v.Name.take 1) ++ v.Name.drop 1,
           EnterpriseID := reversePEN }

/-- The key reaches the default case of the loop body. -/
def reversibleKey (k : Key) : Prop := k.EnterpriseID = 0 ∧ k.FieldID ∉ exclusionSet

instance (k : Key) : Decidable (reversibleKey k) := by
  unfold reversibleKey; exact inferInstance

/-- The iteration at `k` panics: a reversible base entry with an empty name. -/
def faulty (t : Table) (k : Key) : Prop :=
  reversibleKey k ∧ ∃ v, t k = some v ∧ v.Name = []

/-- The table after the loop has handled the keys `ks`. -/
def mirrored (t : Table) (ks : List Key) : Table := fun q =>
  if q.EnterpriseID = reversePEN ∧ q.FieldID ∉ exclusionSet
      ∧ ({ EnterpriseID := 0, FieldID := q.FieldID } : Key) ∈ ks then
    match t { EnterpriseID := 0, FieldID := q.FieldID } with
    | some v => some (mirror v)
    | none => t q
  else t q

/-- The closed form of the loop when the order reaches every entry. -/
def mirroredAll (t : Table) : Table := fun q =>
  if q.EnterpriseID = reversePEN ∧ q.FieldID ∉ exclusionSet then
    match t { EnterpriseID := 0, FieldID := q.FieldID } with
    | some v => some (mirror v)
    | none => t q
  else t q

/-! ## Words of the specification, and example inputs -/

/-- The form of a registration statement as the specification writes it. -/
def statementForm (id name typ : GoString) : GoString :=
  go "\tbuiltin[Key\x7b0, " ++ (id ++ (go "\x7d] = InformationElementEntry\x7bFieldID: " ++
    (id ++ (go ", Name: \"" ++ (name ++ (go "\", Type: FieldTypes[\"" ++
      (typ ++ go "\"]\x7d\n")))))))

/-- The specification's accepted record: none of name, element ID and data
type is empty after trimming surrounding white space. -/
def accepted (r : ipfixRecord) : Bool :=
  decide (TrimSpace r.Name ≠ [] ∧ TrimSpace r.ElementID ≠ [] ∧ TrimSpace r.DataType ≠ [])

/-- Trimming as the specification words it, for a string of ASCII bytes:
the white space at both ends removed, nothing else touched. -/
def trimAscii (s : GoString) : GoString :=
  ((s.dropWhile asciiSpace).reverse.dropWhile asciiSpace).reverse

/-- The registry identifier `getIpfixRecords` looks for. -/
def targetID : GoString := go "ipfix-information-elements"

/-- A document with two sub-registries of the wanted identifier. -/
def twoMatches : ipfixRegistryRoot :=
  { ID := go "ipfix", Title := go "IPFIX Entities",
    Registries :=
      [ { ID := targetID, Record := [⟨go "octetDeltaCount", go "1", go "unsigned64"⟩] },
        { ID := targetID, Record := [⟨go "packetDeltaCount", go "2", go "unsigned64"⟩] } ] }

/-- A document whose only sub-registry has another identifier. -/
def noMatch : ipfixRegistryRoot :=
  { ID := go "ipfix", Title := go "IPFIX Entities",
    Registries := [ { ID := go "ipfix-version-numbers", Record := [] } ] }

/-- A file system holding one file. -/
def oneFile : FileSystem :=
  { files := fun p => if p = go "ipfix.go" then some (go "package translate\n") else none,
    unopenable := fun _ => false }

/-- The base entry of `flowStartSeconds`, field ID 150. -/
def flowStart : InformationElementEntry :=
  { FieldID := 150, Name := go "flowStartSeconds", Typ := 3, EnterpriseID := 0 }

/-- The base entry of `paddingOctets`, field ID 210. -/
def padding : InformationElementEntry :=
  { FieldID := 210, Name := go "paddingOctets", Typ := 1, EnterpriseID := 0 }

/-- A table of two base entries: `flowStartSeconds` and `paddingOctets`. -/
def demoTable : Table :=
  (Table.empty.insert { EnterpriseID := 0, FieldID := 150 } flowStart).insert
    { EnterpriseID := 0, FieldID := 210 } padding

/-- A table whose one entry, at field ID 150, has the empty name. -/
def namelessTable : Table :=
  Table.empty.insert { EnterpriseID := 0, FieldID := 150 }
    { FieldID := 150, Name := [], Typ := 3, EnterpriseID := 0 }

/-- A table whose one entry, at field ID 150, has a name that begins with a
two-byte character. -/
def accentTable : Table :=
  Table.empty.insert { EnterpriseID := 0, FieldID := 150 }
    { FieldID := 150, Name := go "étoile", Typ := 3, EnterpriseID := 0 }

/-- A registry of two records: `flowStartSeconds`, its name and element ID
surrounded by spaces, and a record whose name is a single space. -/
def mixedRecords : List ipfixRecord :=
  [⟨go " flowStartSeconds ", go " 150 ", go "dateTimeSeconds"⟩, ⟨go " ", go "1", go "unsigned8"⟩]

/-- A registry with one record, whose name is a single space. -/
def blankNameRecords : List ipfixRecord := [⟨go " ", go "1", go "unsigned8"⟩]

/-! ## Lemmas -/

/-! ### The bounds of the trimming loops

`trimLeftLoop` and `lastIndexLoop` carry a bound on their iterations. Every
iteration consumes at least one byte, so a bound of the length of the string
is never used up: a larger bound gives the same result. -/

theorem DecodeRuneInString_width (c : Fin 256) (rest : GoString) :
    1 ≤ (DecodeRuneInString (c :: rest)).2 := by
  simp only [DecodeRuneInString]
  repeat' split
  all_goals simp

theorem trimLeftLoop_bound (f : Rune → Bool) (n : Nat) :
    ∀ (m : Nat) (s : GoString), s.length ≤ n → s.length ≤ m →
      trimLeftLoop f n s = trimLeftLoop f m s := by
  induction n with
  | zero =>
    intro m s hs _
    have : s = [] := List.length_eq_zero.mp (Nat.le_zero.mp hs)
    subst this
    cases m <;> rfl
  | succ n ih =>
    intro m s hs hm
    cases s with
    | nil => cases m <;> rfl
    | cons c rest =>
      cases m with
      | zero => simp at hm
      | succ m =>
        have hw := DecodeRuneInString_width c rest
        simp only [List.length_cons] at hs hm
        have hlen : ((c :: rest).drop (DecodeRuneInString (c :: rest)).2).length ≤ rest.length := by
          rw [List.length_drop, List.length_cons]
          omega
        simp only [trimLeftLoop]
        split
        · exact ih m _ (by omega) (by omega)
        · rfl

theorem scanBack_le (s : GoString) (lim : Int) (n : Nat) :
    ∀ start : Int, scanBack s lim n start ≤ start := by
  induction n with
  | zero => intro start; exact le_refl _
  | succ n ih =>
    intro start
    simp only [scanBack]
    split
    · split
      · exact le_refl _
      · have := ih (start - 1)
        omega
    · exact le_refl _

theorem DecodeLastRuneInString_width (s : GoString) (hs : s ≠ []) :
    1 ≤ (DecodeLastRuneInString s).2 := by
  have hpos : 0 < s.length := List.length_pos.mpr hs
  unfold DecodeLastRuneInString
  simp only
  rw [if_neg (by omega)]
  split
  · exact le_refl _
  · have hle := scanBack_le s (if (s.length : Int) - 4 < 0 then 0 else (s.length : Int) - 4) 4
      ((s.length : Int) - 2)
    generalize scanBack s (if (s.length : Int) - 4 < 0 then 0 else (s.length : Int) - 4) 4
      ((s.length : Int) - 2) = start0 at hle ⊢
    have hstart : (if start0 < 0 then 0 else start0.toNat) < s.length := by
      split <;> omega
    generalize (if start0 < 0 then 0 else start0.toNat) = start at hstart ⊢
    cases hd : s.drop start with
    | nil =>
      have := congrArg List.length hd
      rw [List.length_drop] at this
      simp only [List.length_nil] at this
      omega
    | cons c rest =>
      have hw := DecodeRuneInString_width c rest
      split
      · exact le_refl _
      · exact hw

theorem lastIndexLoop_bound (f : Rune → Bool) (s : GoString) (n : Nat) :
    ∀ (m i : Nat), i ≤ s.length → i ≤ n → i ≤ m →
      lastIndexLoop f s n i = lastIndexLoop f s m i := by
  induction n with
  | zero =>
    intro m i _ hn _
    have : i = 0 := Nat.le_zero.mp hn
    subst this
    cases m <;> simp [lastIndexLoop]
  | succ n ih =>
    intro m i his hn hm
    cases m with
    | zero =>
      have : i = 0 := Nat.le_zero.mp hm
      subst this
      simp [lastIndexLoop]
    | succ m =>
      simp only [lastIndexLoop]
      by_cases hi : i = 0
      · simp [hi]
      · rw [if_neg hi, if_neg hi]
        have hne : s.take i ≠ [] := by
          intro h
          have := congrArg List.length h
          rw [List.length_take] at this
          simp only [List.length_nil] at this
          omega
        have hw := DecodeLastRuneInString_width (s.take i) hne
        split
        · exact ih m _ (by omega) (by omega) (by omega)
        · rfl

/-! ### The reverse-synthesis loop -/

theorem reverseBody_eq (t : Table) (k : Key) (v : InformationElementEntry) :
    reverseBody t k v =
      if reversibleKey k then
        (if v.Name = [] then Run.panicked t
         else Run.done (t.insert { EnterpriseID := reversePEN, FieldID := k.FieldID } (mirror v)))
      else Run.done t := by
  unfold reverseBody reversibleKey
  by_cases h0 : k.EnterpriseID = 0
  · by_cases hx : k.FieldID ∈ exclusionSet
    · have hx2 := hx
      simp only [exclusionSet, List.mem_cons, List.mem_singleton, List.not_mem_nil, or_false] at hx2
      simp only [h0, hx, ne_eq, not_true_eq_false, if_false, not_false_eq_true, and_false, and_true,
        List.mem_cons, List.mem_singleton, List.not_mem_nil, or_false]
      rcases hx2 with h | h | h | h | h | h | h | h | h | h | h | h | h | h | h | h | h | h | h | h | h | h | h | h <;> simp [h]
    · have hx2 := hx
      simp only [exclusionSet, List.mem_cons, List.mem_singleton, List.not_mem_nil, or_false, not_or] at hx2
      obtain ⟨a1, a2, a3, a4, a5, a6, a7, a8, a9, a10, a11, a12, a13, a14, a15, a16, a17, a18, a19, a20, a21, a22, a23, a24⟩ := hx2
      cases hn : v.Name with
      | nil => simp [h0, hx, hn, slice, *]
      | cons b rest => simp [h0, hx, hn, slice, mirror, *]
  · simp [h0]

theorem insert_base (t : Table) (f : Nat) (v : InformationElementEntry) (q : Key)
    (h : q.EnterpriseID = 0) :
    (t.insert { EnterpriseID := reversePEN, FieldID := f } v) q = t q := by
  unfold Table.insert
  have hne : q ≠ { EnterpriseID := reversePEN, FieldID := f } := by
    intro hq
    rw [hq] at h
    simp [reversePEN] at h
  simp [hne]

theorem faulty_insert (t : Table) (f : Nat) (v : InformationElementEntry) (q : Key) :
    faulty (t.insert { EnterpriseID := reversePEN, FieldID := f } v) q ↔ faulty t q := by
  unfold faulty
  constructor
  · rintro ⟨hr, w, hw, hn⟩
    exact ⟨hr, w, by rwa [insert_base t f v q hr.1] at hw, hn⟩
  · rintro ⟨hr, w, hw, hn⟩
    exact ⟨hr, w, by rwa [insert_base t f v q hr.1], hn⟩

theorem key_eta (k : Key) (h : k.EnterpriseID = 0) :
    ({ EnterpriseID := 0, FieldID := k.FieldID } : Key) = k := by
  cases k
  simp_all

theorem mirrored_cons_skip (t : Table) (k : Key) (ks : List Key)
    (h : ¬ reversibleKey k ∨ t k = none) :
    mirrored t (k :: ks) = mirrored t ks := by
  funext q
  unfold mirrored
  by_cases hq : ({ EnterpriseID := 0, FieldID := q.FieldID } : Key) = k
  · rcases h with h | h
    · have : q.FieldID ∈ exclusionSet := by
        by_contra hx
        apply h
        rw [← hq]
        exact ⟨rfl, hx⟩
      simp [this]
    · simp only [hq, h, List.mem_cons, true_or, and_true]
      split <;> split <;> rfl
  · simp [List.mem_cons, hq]

theorem mirrored_cons_insert (t : Table) (k : Key) (v : InformationElementEntry) (ks : List Key)
    (hk : reversibleKey k) (hv : t k = some v) :
    mirrored (t.insert { EnterpriseID := reversePEN, FieldID := k.FieldID } (mirror v)) ks
      = mirrored t (k :: ks) := by
  funext q
  unfold mirrored
  rw [insert_base t k.FieldID (mirror v) _ rfl]
  by_cases hq : ({ EnterpriseID := 0, FieldID := q.FieldID } : Key) = k
  · have hf : q.FieldID = k.FieldID := by rw [← hq]
    have hx : q.FieldID ∉ exclusionSet := hf ▸ hk.2
    by_cases hp : q.EnterpriseID = reversePEN
    · have hqk : q = { EnterpriseID := reversePEN, FieldID := k.FieldID } := by
        cases q; simp_all
      simp only [hp, hx, not_false_eq_true, hq, hv, List.mem_cons, true_or, true_and, and_true,
        if_true]
      split
      · rfl
      · simp [Table.insert, hqk]
    · have hqk : q ≠ { EnterpriseID := reversePEN, FieldID := k.FieldID } := by
        intro h; apply hp; rw [h]
      simp [hp, Table.insert, hqk]
  · by_cases hc : q.EnterpriseID = reversePEN ∧ q.FieldID ∉ exclusionSet
        ∧ ({ EnterpriseID := 0, FieldID := q.FieldID } : Key) ∈ ks
    · have hc2 : q.EnterpriseID = reversePEN ∧ q.FieldID ∉ exclusionSet
        ∧ ({ EnterpriseID := 0, FieldID := q.FieldID } : Key) ∈ k :: ks :=
        ⟨hc.1, hc.2.1, List.mem_cons_of_mem _ hc.2.2⟩
      rw [if_pos hc, if_pos hc2]
      cases hb : t { EnterpriseID := 0, FieldID := q.FieldID } with
      | some w => rfl
      | none =>
        simp only [Table.insert]
        have : q ≠ { EnterpriseID := reversePEN, FieldID := k.FieldID } := by
          intro h
          apply hq
          have : q.FieldID = k.FieldID := by rw [h]
          rw [this]
          exact key_eta k hk.1
        simp [this]
    · have hc2 : ¬ (q.EnterpriseID = reversePEN ∧ q.FieldID ∉ exclusionSet
        ∧ ({ EnterpriseID := 0, FieldID := q.FieldID } : Key) ∈ k :: ks) := by
        rintro ⟨h1, h2, h3⟩
        rcases List.mem_cons.mp h3 with h | h
        · exact hq h
        · exact hc ⟨h1, h2, h⟩
      rw [if_neg hc, if_neg hc2]
      simp only [Table.insert]
      have : q ≠ { EnterpriseID := reversePEN, FieldID := k.FieldID } := by
        intro h
        apply hq
        have : q.FieldID = k.FieldID := by rw [h]
        rw [this]
        exact key_eta k hk.1
      simp [this]

theorem reverseSynthesis_done (ks : List Key) :
    ∀ t : Table, (∀ k ∈ ks, ¬ faulty t k) → reverseSynthesis t ks = Run.done (mirrored t ks) := by
  induction ks with
  | nil =>
    intro t _
    have : mirrored t [] = t := by
      funext q
      simp [mirrored]
    simp [reverseSynthesis, this]
  | cons k ks ih =>
    intro t h
    have hrest : ∀ q ∈ ks, ¬ faulty t q := fun q hq => h q (List.mem_cons_of_mem _ hq)
    cases hv : t k with
    | none =>
      simp only [reverseSynthesis, hv]
      rw [ih t hrest, mirrored_cons_skip t k ks (Or.inr hv)]
    | some v =>
      simp only [reverseSynthesis, hv, reverseBody_eq]
      by_cases hk : reversibleKey k
      · have hn : v.Name ≠ [] := fun hn => h k (List.mem_cons_self _ _) ⟨hk, v, hv, hn⟩
        simp only [hk, hn, if_true, if_false]
        rw [ih _ (fun q hq => fun hf => hrest q hq ((faulty_insert t _ _ q).mp hf)),
          mirrored_cons_insert t k v ks hk hv]
      · simp only [hk, if_false]
        rw [ih t hrest, mirrored_cons_skip t k ks (Or.inl hk)]

theorem reverseSynthesis_panicked (ks : List Key) :
    ∀ t : Table, (∃ k ∈ ks, faulty t k) → ∃ t1, reverseSynthesis t ks = Run.panicked t1 := by
  induction ks with
  | nil =>
    rintro t ⟨k, hk, _⟩
    cases hk
  | cons k ks ih =>
    rintro t ⟨q, hq, hf⟩
    cases hv : t k with
    | none =>
      simp only [reverseSynthesis, hv]
      rcases List.mem_cons.mp hq with h | h
      · obtain ⟨_, w, hw, _⟩ := hf
        rw [h, hv] at hw
        cases hw
      · exact ih t ⟨q, h, hf⟩
    | some v =>
      simp only [reverseSynthesis, hv, reverseBody_eq]
      by_cases hk : reversibleKey k
      · by_cases hn : v.Name = []
        · simp only [hk, hn, if_true]
          exact ⟨t, rfl⟩
        · simp only [hk, hn, if_true, if_false]
          rcases List.mem_cons.mp hq with h | h
          · obtain ⟨_, w, hw, hwn⟩ := hf
            rw [h, hv] at hw
            cases hw
            exact absurd hwn hn
          · exact ih _ ⟨q, h, (faulty_insert t _ _ q).mpr hf⟩
      · simp only [hk, if_false]
        rcases List.mem_cons.mp hq with h | h
        · exact absurd (h ▸ hf.1) hk
        · exact ih t ⟨q, h, hf⟩

theorem reverseSynthesis_frame (ks : List Key) :
    ∀ (t : Table) (q : Key), (reverseSynthesis t ks).table q ≠ t q →
      q.EnterpriseID = reversePEN ∧ q.FieldID ∉ exclusionSet
        ∧ (t { EnterpriseID := 0, FieldID := q.FieldID }).isSome := by
  induction ks with
  | nil =>
    intro t q h
    exact absurd rfl h
  | cons k ks ih =>
    intro t q h
    cases hv : t k with
    | none =>
      simp only [reverseSynthesis, hv] at h
      exact ih t q h
    | some v =>
      simp only [reverseSynthesis, hv, reverseBody_eq] at h
      by_cases hk : reversibleKey k
      · by_cases hn : v.Name = []
        · simp only [hk, hn, if_true] at h
          exact absurd rfl h
        · simp only [hk, hn, if_true, if_false] at h
          by_cases hq : q = { EnterpriseID := reversePEN, FieldID := k.FieldID }
          · refine ⟨by rw [hq], by rw [hq]; exact hk.2, ?_⟩
            have : q.FieldID = k.FieldID := by rw [hq]
            rw [this, key_eta k hk.1, hv]
            rfl
          · have hsame : (t.insert { EnterpriseID := reversePEN, FieldID := k.FieldID } (mirror v)) q
                = t q := by
              simp [Table.insert, hq]
            have := ih (t.insert { EnterpriseID := reversePEN, FieldID := k.FieldID } (mirror v)) q
              (by rw [hsame]; exact h)
            rw [insert_base t k.FieldID (mirror v) _ rfl] at this
            exact this
      · simp only [hk, if_false] at h
        exact ih t q h

theorem Statement.text_eq (s : Statement) :
    s.text = statementForm s.FieldID s.Name s.Typ := rfl

theorem statementsText_eq (l : List Statement) :
    statementsText l = (l.map Statement.text).flatten := by
  induction l with
  | nil => rfl
  | cons s rest ih => simp [statementsText, ih]

theorem registrationLoop_eq (records : List ipfixRecord) :
    registrationLoop records = (records.filter passesGuard).map statementOf := by
  induction records with
  | nil => rfl
  | cons r rest ih =>
    unfold registrationLoop
    by_cases h : r.Name = [] ∨ r.DataType = [] ∨ r.ElementID = []
    · have hf : ¬ (passesGuard r = true) := by
        unfold passesGuard
        simp only [decide_eq_true_eq]
        exact fun hn => hn h
      rw [if_pos h, ih, List.filter_cons_of_neg hf]
    · have hf : passesGuard r = true := by
        unfold passesGuard
        simp only [decide_eq_true_eq]
        exact h
      rw [if_neg h, ih, List.filter_cons_of_pos hf]
      rfl

theorem trimSpaceTail_ascii (u : GoString) (h : ∀ b ∈ u, b.val < 0x80) :
    trimSpaceTail u = (u.dropWhile asciiSpace).reverse := by
  induction u with
  | nil => rfl
  | cons c rest ih =>
    have hc : ¬ c.val ≥ 0x80 := by
      have := h c (List.mem_cons_self _ _)
      omega
    unfold trimSpaceTail
    rw [if_neg hc]
    by_cases hs : asciiSpace c = true
    · rw [if_pos hs, ih (fun b hb => h b (List.mem_cons_of_mem _ hb)), List.dropWhile_cons_of_pos hs]
    · rw [if_neg hs, List.dropWhile_cons_of_neg hs]

theorem TrimSpace_ascii (s : GoString) (h : ∀ b ∈ s, b.val < 0x80) :
    TrimSpace s = trimAscii s := by
  induction s with
  | nil => rfl
  | cons c rest ih =>
    have hc : ¬ c.val ≥ 0x80 := by
      have := h c (List.mem_cons_self _ _)
      omega
    unfold TrimSpace trimAscii
    rw [if_neg hc]
    by_cases hs : asciiSpace c = true
    · rw [if_pos hs, ih (fun b hb => h b (List.mem_cons_of_mem _ hb)), List.dropWhile_cons_of_pos hs]
      rfl
    · rw [if_neg hs, List.dropWhile_cons_of_neg hs]
      exact trimSpaceTail_ascii _ (fun b hb => h b (List.mem_reverse.mp hb))

theorem accepted_passesGuard (r : ipfixRecord) (h : accepted r = true) : passesGuard r = true := by
  unfold accepted at h
  unfold passesGuard
  simp only [decide_eq_true_eq] at h ⊢
  rintro (hn | hn | hn)
  · exact h.1 (by rw [hn]; rfl)
  · exact h.2.2 (by rw [hn]; rfl)
  · exact h.2.1 (by rw [hn]; rfl)

theorem accepted_records_registered (records : List ipfixRecord) :
    ((records.filter accepted).map statementOf).Sublist (registrationLoop records) := by
  rw [registrationLoop_eq]
  exact (List.monotone_filter_right records accepted_passesGuard).map statementOf

theorem header_eq (now : GoString) :
    Sprintf headerFormat [now, ipfixURL] =
      go "package translate\n\n" ++ (go "// Autogenerated " ++ (now ++ (go "\n" ++
        go ("\nimport \"strings\"\n\n" ++
          "// Reverse Information Element Private Enterprise Number (RFC 5103)\n" ++
          "const reversePEN = 29305\n\n" ++
          "// IANA Assigned (RFC 5102), see http://www.iana.org/assignments/ipfix/ipfix.xml")))) :=
  rfl

theorem initLine_eq : Sprintf (go "\nfunc init() \x7b\n") [] = go "\nfunc init() \x7b\n" := rfl

theorem reverseBlock_eq : Sprintf reverseBlockFormat [] = reverseBlockFormat := by decide!

theorem mirrored_of_covers (t : Table) (order : List Key) (hcov : Covers t order) :
    mirrored t order = mirroredAll t := by
  funext q
  unfold mirrored mirroredAll
  by_cases hm : ({ EnterpriseID := 0, FieldID := q.FieldID } : Key) ∈ order
  · simp [hm]
  · have hnone : t { EnterpriseID := 0, FieldID := q.FieldID } = none := by
      cases hb : t { EnterpriseID := 0, FieldID := q.FieldID } with
      | none => rfl
      | some w => exact absurd (hcov _ (by rw [hb]; rfl)) hm
    simp only [hm, and_false, if_false, hnone]
    split <;> rfl

theorem faulty_mem_of_covers (t : Table) (order : List Key) (hcov : Covers t order) (k : Key)
    (hf : faulty t k) : k ∈ order := by
  obtain ⟨_, w, hw, _⟩ := hf
  exact hcov k (by rw [hw]; rfl)

theorem mirrored_entry (t : Table) (order : List Key) (hcov : Covers t order)
    (hnames : ∀ k v, t k = some v → k.EnterpriseID = 0 → k.FieldID ∉ exclusionSet → v.Name ≠ [])
    (f : Nat) (v : InformationElementEntry) (hv : t { EnterpriseID := 0, FieldID := f } = some v)
    (hf : f ∉ exclusionSet) :
    reverseSynthesis t order = Run.done (mirroredAll t)
      ∧ mirroredAll t { EnterpriseID := 29305, FieldID := f } = some (mirror v) := by
  constructor
  · rw [← mirrored_of_covers t order hcov]
    apply reverseSynthesis_done
    rintro k _ ⟨hr, w, hw, hn⟩
    exact hnames k w hw hr.1 hr.2 hn
  · unfold mirroredAll
    simp [reversePEN, hf, hv]

theorem demoTable_covers (rest : List Key) :
    Covers demoTable
      ({ EnterpriseID := 0, FieldID := 150 } :: { EnterpriseID := 0, FieldID := 210 } :: rest) := by
  intro k hk
  unfold demoTable Table.insert Table.empty at hk
  by_cases h1 : k = { EnterpriseID := 0, FieldID := 210 }
  · simp [h1]
  · by_cases h2 : k = { EnterpriseID := 0, FieldID := 150 }
    · simp [h2]
    · simp [h1, h2] at hk

theorem demoTable_names (k : Key) (v : InformationElementEntry) (hv : demoTable k = some v) :
    v.Name ≠ [] := by
  unfold demoTable Table.insert Table.empty at hv
  by_cases h1 : k = { EnterpriseID := 0, FieldID := 210 }
  · rw [if_pos h1] at hv
    cases hv
    decide
  · rw [if_neg h1] at hv
    by_cases h2 : k = { EnterpriseID := 0, FieldID := 150 }
    · rw [if_pos h2] at hv
      cases hv
      decide
    · rw [if_neg h2] at hv
      cases hv

theorem demoTable_base (k : Key) (hk : (demoTable k).isSome) : k.EnterpriseID = 0 := by
  unfold demoTable Table.insert Table.empty at hk
  by_cases h1 : k = { EnterpriseID := 0, FieldID := 210 }
  · rw [h1]
  · by_cases h2 : k = { EnterpriseID := 0, FieldID := 150 }
    · rw [h2]
    · simp [h1, h2] at hk

theorem generatedText_layout (now : GoString) (records : List ipfixRecord) :
    generatedText now records =
      Sprintf headerFormat [now, ipfixURL] ++ (go "\nfunc init() \x7b\n" ++
        (((records.filter passesGuard).map (fun r =>
            statementForm (TrimSpace r.ElementID) (TrimSpace r.Name)
              (TrimSpace r.DataType))).flatten ++ reverseBlockFormat)) := by
  unfold generatedText
  rw [initLine_eq, reverseBlock_eq, statementsText_eq, registrationLoop_eq, List.map_map]
  rfl

/-! ## The claims -/

/-- C1 (the code departs from the claim): a record whose name is one space,
and a record whose element ID is one space, are empty in that field after
trimming, yet `createIpfixRegistry` writes a registration statement for
each; the guard compares the untrimmed fields with the empty string. -/
theorem whitespace_only_field_is_registered :
    TrimSpace (go " ") = []
    ∧ registrationLoop [⟨go " ", go "1", go "unsigned8"⟩]
        = [{ FieldID := go "1", Name := [], Typ := go "unsigned8" }]
    ∧ statementsText (registrationLoop [⟨go " ", go "1", go "unsigned8"⟩])
        = go ("\tbuiltin[Key\x7b0, 1\x7d] = InformationElementEntry\x7bFieldID: 1, " ++
            "Name: \"\", Type: FieldTypes[\"unsigned8\"]\x7d\n")
    ∧ statementsText (registrationLoop [⟨go "octetDeltaCount", go " ", go "unsigned64"⟩])
        = go ("\tbuiltin[Key\x7b0, \x7d] = InformationElementEntry\x7bFieldID: , " ++
            "Name: \"octetDeltaCount\", Type: FieldTypes[\"unsigned64\"]\x7d\n") := by
  refine ⟨by decide, by decide, by decide, by decide⟩

/-- C2 (the code departs from the claim): of the two records
`{" flowStartSeconds ", " 150 ", "dateTimeSeconds"}` and
`{" ", "1", "unsigned8"}` only the first is accepted, the name of the second
being empty after trimming, yet `createIpfixRegistry` writes two
registration statements: the one for field ID 150, with the trimmed
element ID and name, and after it one for the second record, with the
empty name. The number of statements is not the number of accepted
records. -/
theorem statements_outnumber_accepted_records :
    mixedRecords.map accepted = [true, false]
    ∧ mixedRecords.countP accepted = 1
    ∧ (registrationLoop mixedRecords).length = 2
    ∧ registrationLoop mixedRecords
        = [{ FieldID := go "150", Name := go "flowStartSeconds", Typ := go "dateTimeSeconds" },
           { FieldID := go "1", Name := [], Typ := go "unsigned8" }]
    ∧ statementsText (registrationLoop mixedRecords)
        = go ("\tbuiltin[Key\x7b0, 150\x7d] = InformationElementEntry\x7bFieldID: 150, " ++
            "Name: \"flowStartSeconds\", Type: FieldTypes[\"dateTimeSeconds\"]\x7d\n" ++
            "\tbuiltin[Key\x7b0, 1\x7d] = InformationElementEntry\x7bFieldID: 1, " ++
            "Name: \"\", Type: FieldTypes[\"unsigned8\"]\x7d\n") := by
  refine ⟨by decide, by decide, by decide, by decide, by decide⟩

/-- C3 (counterexample): field ID 150 is not excluded, yet for a table whose
entry at (0, 150) has the empty name the loop panics at `v.Name[0:1]` and
the table has no entry at (29305, 150); and for an entry named `étoile` the
stored name is `reverse`, the replacement character, and the rest of the
bytes, not `reverseÉtoile`: `v.Name[0:1]` is the first byte, not the first
character. -/
theorem reverse_entry_missing_for_empty_name :
    150 ∉ exclusionSet
    ∧ (namelessTable { EnterpriseID := 0, FieldID := 150 }).isSome = true
    ∧ (reverseSynthesis namelessTable [{ EnterpriseID := 0, FieldID := 150 }]).completed.isSome
        = false
    ∧ (reverseSynthesis namelessTable [{ EnterpriseID := 0, FieldID := 150 }]).table
        { EnterpriseID := 29305, FieldID := 150 } = none
    ∧ ((reverseSynthesis accentTable [{ EnterpriseID := 0, FieldID := 150 }]).table
        { EnterpriseID := 29305, FieldID := 150 }).map (fun e => e.Name)
        = some (go "reverse" ++ [0xEF, 0xBF, 0xBD, 0xA9] ++ go "toile")
    ∧ ((reverseSynthesis accentTable [{ EnterpriseID := 0, FieldID := 150 }]).table
        { EnterpriseID := 29305, FieldID := 150 }).map (fun e => e.Name)
        ≠ some (go "reverseÉtoile") := by
  refine ⟨by decide, by decide, by decide, by decide, by decide, by decide⟩

/-- C3 (amended): in a table whose base entries with a reversible field ID
all have a non-empty name, for every entry at (0, f) with f outside the
exclusion set and a name that begins with an ASCII character: the loop,
in any order that reaches every entry, runs to completion, and the table
then has an entry at (29305, f) named `reverse` followed by the original
name with its first character in upper case. -/
theorem reverse_entry_created (t : Table) (order : List Key) (hcov : Covers t order)
    (hnames : ∀ k v, t k = some v → k.EnterpriseID = 0 → k.FieldID ∉ exclusionSet → v.Name ≠ [])
    (f : Nat) (v : InformationElementEntry)
    (hv : t { EnterpriseID := 0, FieldID := f } = some v) (hf : f ∉ exclusionSet)
    (c : Fin 256) (rest : GoString) (hname : v.Name = c :: rest) (hc : c.val < 0x80) :
    ∃ t1 e, reverseSynthesis t order = Run.done t1
      ∧ t1 { EnterpriseID := 29305, FieldID := f } = some e
      ∧ e.Name = reverseName v.Name := by
  obtain ⟨hrun, hentry⟩ := mirrored_entry t order hcov hnames f v hv hf
  refine ⟨mirroredAll t, mirror v, hrun, hentry, ?_⟩
  rw [hname]
  simp [mirror, reverseName, hname, ToUpper, hc]

/-- C3 at `flowStartSeconds`, field ID 150: the mirrored entry is named
`reverseFlowStartSeconds`. -/
theorem reverse_entry_created_witness :
    Covers demoTable [{ EnterpriseID := 0, FieldID := 150 }, { EnterpriseID := 0, FieldID := 210 },
      { EnterpriseID := 29305, FieldID := 150 }]
    ∧ (∀ k v, demoTable k = some v → k.EnterpriseID = 0 → k.FieldID ∉ exclusionSet → v.Name ≠ [])
    ∧ demoTable { EnterpriseID := 0, FieldID := 150 } = some flowStart
    ∧ 150 ∉ exclusionSet
    ∧ flowStart.Name = 0x66 :: go "lowStartSeconds"
    ∧ reverseName flowStart.Name = go "reverseFlowStartSeconds"
    ∧ ∃ t1 e, reverseSynthesis demoTable [{ EnterpriseID := 0, FieldID := 150 },
          { EnterpriseID := 0, FieldID := 210 }, { EnterpriseID := 29305, FieldID := 150 }]
          = Run.done t1
        ∧ t1 { EnterpriseID := 29305, FieldID := 150 } = some e
        ∧ e.Name = reverseName flowStart.Name :=
  ⟨demoTable_covers _, fun k v hv _ _ => demoTable_names k v hv, by decide, by decide, by decide,
    by decide,
    reverse_entry_created demoTable _ (demoTable_covers _)
      (fun k v hv _ _ => demoTable_names k v hv) 150 flowStart (by decide) (by decide)
      0x66 (go "lowStartSeconds") (by decide) (by decide)⟩

/-- C4: in a table that holds only entries with enterprise ID 0, for every
entry whose field ID is in the exclusion set, the table has no entry at
(29305, that field ID) when the loop has ended, whatever keys the loop
reached and whether it completed or panicked. -/
theorem no_reverse_entry_for_excluded (t : Table) (order : List Key)
    (honly : ∀ k, (t k).isSome → k.EnterpriseID = 0)
    (f : Nat) (v : InformationElementEntry)
    (_hv : t { EnterpriseID := 0, FieldID := f } = some v) (hf : f ∈ exclusionSet) :
    (reverseSynthesis t order).table { EnterpriseID := 29305, FieldID := f } = none := by
  have hstart : t { EnterpriseID := 29305, FieldID := f } = none := by
    cases hb : t { EnterpriseID := 29305, FieldID := f } with
    | none => rfl
    | some w =>
      have := honly { EnterpriseID := 29305, FieldID := f } (by rw [hb]; rfl)
      simp at this
  by_contra hne
  have hchanged : (reverseSynthesis t order).table { EnterpriseID := 29305, FieldID := f }
      ≠ t { EnterpriseID := 29305, FieldID := f } := by
    rw [hstart]
    exact hne
  exact (reverseSynthesis_frame order t _ hchanged).2.1 hf

/-- C4 at `paddingOctets`, field ID 210: a base entry and no reverse
entry. -/
theorem no_reverse_entry_for_excluded_witness :
    (∀ k, (demoTable k).isSome → k.EnterpriseID = 0)
    ∧ demoTable { EnterpriseID := 0, FieldID := 210 } = some padding
    ∧ 210 ∈ exclusionSet
    ∧ (reverseSynthesis demoTable
        [{ EnterpriseID := 0, FieldID := 210 }, { EnterpriseID := 0, FieldID := 150 }]).table
        { EnterpriseID := 29305, FieldID := 210 } = none :=
  ⟨demoTable_base, by decide, by decide,
    no_reverse_entry_for_excluded demoTable _ demoTable_base 210 padding (by decide) (by decide)⟩

/-- C5 (counterexample): with two sub-registries of the wanted identifier
`getIpfixRecords` does not abort; it returns the records of the first. -/
theorem two_matching_registries_return_first :
    twoMatches.Registries.countP (fun r => decide (r.ID = targetID)) = 2
    ∧ getIpfixRecords (Download.decoded twoMatches)
        = Ends.returns [⟨go "octetDeltaCount", go "1", go "unsigned64"⟩] := by
  refine ⟨by decide, by decide⟩

/-- C5 (amended): on a decoded document `getIpfixRecords` returns the
records of the first sub-registry, in document order, whose identifier is
`ipfix-information-elements`, and the run aborts (exit status 1) exactly
when no sub-registry has that identifier. -/
theorem getIpfixRecords_first_match (root : ipfixRegistryRoot) :
    getIpfixRecords (Download.decoded root)
        = (match root.Registries.find? (fun r => decide (r.ID = targetID)) with
           | some r => Ends.returns r.Record
           | none => Ends.exits 1)
    ∧ (getIpfixRecords (Download.decoded root) = Ends.exits 1
        ↔ root.Registries.countP (fun r => decide (r.ID = targetID)) = 0) := by
  have key : ∀ l : List ipfixRegistry,
      findIpfixRegistry l
          = (match l.find? (fun r => decide (r.ID = targetID)) with
             | some r => Ends.returns r.Record
             | none => Ends.exits 1)
      ∧ (findIpfixRegistry l = Ends.exits 1
          ↔ l.countP (fun r => decide (r.ID = targetID)) = 0) := by
    intro l
    induction l with
    | nil => exact ⟨rfl, by simp [findIpfixRegistry]⟩
    | cons r rest ih =>
      unfold findIpfixRegistry
      by_cases h : r.ID = targetID
      · have h2 : r.ID = go "ipfix-information-elements" := h
        simp [h2, List.find?_cons, List.countP_cons, targetID]
      · have h2 : ¬ r.ID = go "ipfix-information-elements" := h
        rw [if_neg h2]
        refine ⟨?_, ?_⟩
        · rw [ih.1, List.find?_cons]
          simp [h]
        · rw [ih.2, List.countP_cons]
          simp [h]
  exact key root.Registries

/-- C6: with a non-empty output path and a decoded document in which no
sub-registry has the identifier `ipfix-information-elements`, the run ends
with exit status 1 and the file system is as it was: no file is created or
truncated. -/
theorem missing_registry_leaves_files_untouched (output : GoString) (root : ipfixRegistryRoot)
    (now : GoString) (fs : FileSystem) (hout : output ≠ [])
    (hnone : ∀ r ∈ root.Registries, r.ID ≠ go "ipfix-information-elements") :
    main output (Download.decoded root) now fs = (1, fs) := by
  have key : ∀ l : List ipfixRegistry,
      (∀ r ∈ l, r.ID ≠ go "ipfix-information-elements") → findIpfixRegistry l = Ends.exits 1 := by
    intro l
    induction l with
    | nil => intro _; rfl
    | cons r rest ih =>
      intro h
      unfold findIpfixRegistry
      rw [if_neg (h r (List.mem_cons_self _ _))]
      exact ih (fun x hx => h x (List.mem_cons_of_mem _ hx))
  unfold main
  rw [if_neg hout]
  simp only [getIpfixRecords, key root.Registries hnone]

/-- C6 at a concrete run: output path `ipfix.go`, which holds a file, and a
document whose only sub-registry is `ipfix-version-numbers`. -/
theorem missing_registry_leaves_files_untouched_witness :
    go "ipfix.go" ≠ []
    ∧ (∀ r ∈ noMatch.Registries, r.ID ≠ go "ipfix-information-elements")
    ∧ main (go "ipfix.go") (Download.decoded noMatch) (go "Wed Nov  4 10:05:00 UTC 2026") oneFile
        = (1, oneFile) :=
  ⟨by decide, by decide,
    missing_registry_leaves_files_untouched (go "ipfix.go") noMatch
      (go "Wed Nov  4 10:05:00 UTC 2026") oneFile (by decide) (by decide)⟩

/-- C7: for two orders that each reach every entry of the table (and may or
may not reach the entries the loop inserts), the loop ends the same way:
both runs complete with the same table, or both panic. One iteration changes
the table at keys with enterprise ID 29305 only, so it never changes or
removes an entry with enterprise ID 0. -/
theorem reverse_synthesis_order_independent (t : Table) (order1 order2 : List Key)
    (h1 : Covers t order1) (h2 : Covers t order2) :
    (reverseSynthesis t order1).completed = (reverseSynthesis t order2).completed
    ∧ (∀ (builtin : Table) (k : Key) (v : InformationElementEntry) (q : Key),
        (reverseBody builtin k v).table q ≠ builtin q → q.EnterpriseID = 29305)
    ∧ (∀ (builtin : Table) (k : Key) (v : InformationElementEntry) (q : Key),
        q.EnterpriseID = 0 → (reverseBody builtin k v).table q = builtin q) := by
  have hbody : ∀ (builtin : Table) (k : Key) (v : InformationElementEntry) (q : Key),
      (reverseBody builtin k v).table q ≠ builtin q → q.EnterpriseID = 29305 := by
    intro builtin k v q hne
    rw [reverseBody_eq] at hne
    by_cases hk : reversibleKey k
    · by_cases hn : v.Name = []
      · simp only [hk, hn, if_true] at hne
        exact absurd rfl hne
      · simp only [hk, hn, if_true, if_false, Run.table, Table.insert] at hne
        by_cases hq : q = { EnterpriseID := reversePEN, FieldID := k.FieldID }
        · rw [hq]
          rfl
        · rw [if_neg hq] at hne
          exact absurd rfl hne
    · simp only [hk, if_false] at hne
      exact absurd rfl hne
  refine ⟨?_, hbody, ?_⟩
  · by_cases hfa : ∃ k, faulty t k
    · obtain ⟨k, hk⟩ := hfa
      obtain ⟨a, ha⟩ := reverseSynthesis_panicked order1 t
        ⟨k, faulty_mem_of_covers t order1 h1 k hk, hk⟩
      obtain ⟨b, hb⟩ := reverseSynthesis_panicked order2 t
        ⟨k, faulty_mem_of_covers t order2 h2 k hk, hk⟩
      rw [ha, hb]
      rfl
    · have hnone : ∀ order : List Key, ∀ k ∈ order, ¬ faulty t k :=
        fun _ k _ hk => hfa ⟨k, hk⟩
      rw [reverseSynthesis_done order1 t (hnone order1),
        reverseSynthesis_done order2 t (hnone order2),
        mirrored_of_covers t order1 h1, mirrored_of_covers t order2 h2]
  · intro builtin k v q hq
    by_contra hne
    have := hbody builtin k v q hne
    rw [hq] at this
    cases this

/-- C7 at a table of two base entries: one order reaches the inserted entry
(29305, 150), the other visits the base entries the other way round. -/
theorem reverse_synthesis_order_independent_witness :
    Covers demoTable [{ EnterpriseID := 0, FieldID := 150 }, { EnterpriseID := 0, FieldID := 210 },
      { EnterpriseID := 29305, FieldID := 150 }]
    ∧ Covers demoTable [{ EnterpriseID := 0, FieldID := 210 }, { EnterpriseID := 0, FieldID := 150 }]
    ∧ (reverseSynthesis demoTable [{ EnterpriseID := 0, FieldID := 150 },
          { EnterpriseID := 0, FieldID := 210 }, { EnterpriseID := 29305, FieldID := 150 }]).completed
        = (reverseSynthesis demoTable
            [{ EnterpriseID := 0, FieldID := 210 }, { EnterpriseID := 0, FieldID := 150 }]).completed :=
  have hswap : Covers demoTable
      [{ EnterpriseID := 0, FieldID := 210 }, { EnterpriseID := 0, FieldID := 150 }] :=
    fun k hk => by
      have := demoTable_covers [] k hk
      simp only [List.mem_cons, List.mem_singleton, List.not_mem_nil, or_false] at this ⊢
      tauto
  ⟨demoTable_covers _, hswap,
    (reverse_synthesis_order_independent demoTable _ _ (demoTable_covers _) hswap).1⟩

/-- C8: for one record sequence and two timestamps, the two generated texts
are the same two lines `package translate` and an empty line, then the line
`// Autogenerated <timestamp>`, then one common remainder; so they differ in
that line only, and not at all when the timestamps are equal. -/
theorem generated_text_differs_in_timestamp_line_only (records : List ipfixRecord)
    (ts1 ts2 : GoString) :
    ∃ post : GoString,
      generatedText ts1 records
          = go "package translate\n\n" ++ (go "// Autogenerated " ++ (ts1 ++ (go "\n" ++ post)))
      ∧ generatedText ts2 records
          = go "package translate\n\n" ++ (go "// Autogenerated " ++ (ts2 ++ (go "\n" ++ post)))
      ∧ (ts1 = ts2 → generatedText ts1 records = generatedText ts2 records) := by
  refine ⟨go ("\nimport \"strings\"\n\n" ++
      "// Reverse Information Element Private Enterprise Number (RFC 5103)\n" ++
      "const reversePEN = 29305\n\n" ++
      "// IANA Assigned (RFC 5102), see http://www.iana.org/assignments/ipfix/ipfix.xml") ++
    (Sprintf (go "\nfunc init() \x7b\n") [] ++
      (statementsText (registrationLoop records) ++ Sprintf reverseBlockFormat [])),
    ?_, ?_, fun h => by rw [h]⟩
  · unfold generatedText
    rw [header_eq]
    simp only [List.append_assoc]
  · unfold generatedText
    rw [header_eq]
    simp only [List.append_assoc]

/-- C9 (counterexample): the base entry of `flowStartSeconds` has
`EnterpriseID` 0, and the entry the loop stores at (29305, 150) has
`EnterpriseID` 29305: a field other than `Name` differs. -/
theorem mirrored_entry_changes_enterprise_id :
    (demoTable { EnterpriseID := 0, FieldID := 150 }).map (fun e => e.EnterpriseID) = some 0
    ∧ ((reverseSynthesis demoTable
          [{ EnterpriseID := 0, FieldID := 150 }, { EnterpriseID := 0, FieldID := 210 }]).table
        { EnterpriseID := 29305, FieldID := 150 }).map (fun e => e.EnterpriseID) = some 29305 := by
  refine ⟨by decide, by decide⟩

/-- C9 (amended): in a table whose base entries with a reversible field ID
all have a non-empty name, for every entry `v` at (0, f) with f outside the
exclusion set, the loop completes and the entry it leaves at (29305, f) is
`v` with two fields changed: `Name`, which is `reverse` followed by the
name with its first byte upper-cased, and `EnterpriseID`, which is 29305;
`FieldID` and `Type` are those of `v`. -/
theorem mirrored_entry_keeps_field_id_and_type (t : Table) (order : List Key)
    (hcov : Covers t order)
    (hnames : ∀ k v, t k = some v → k.EnterpriseID = 0 → k.FieldID ∉ exclusionSet → v.Name ≠ [])
    (f : Nat) (v : InformationElementEntry)
    (hv : t { EnterpriseID := 0, FieldID := f } = some v) (hf : f ∉ exclusionSet) :
    ∃ t1 e, reverseSynthesis t order = Run.done t1
      ∧ t1 { EnterpriseID := 29305, FieldID := f } = some e
      ∧ e = { v with Name := go "reverse" ++ ToUpper (v.Name.take 1) ++ v.Name.drop 1,
                     EnterpriseID := 29305 }
      ∧ e.FieldID = v.FieldID ∧ e.Typ = v.Typ ∧ e.EnterpriseID = 29305 := by
  obtain ⟨hrun, hentry⟩ := mirrored_entry t order hcov hnames f v hv hf
  exact ⟨mirroredAll t, mirror v, hrun, hentry, rfl, rfl, rfl, rfl⟩

/-- C9 at `flowStartSeconds`, field ID 150. -/
theorem mirrored_entry_keeps_field_id_and_type_witness :
    Covers demoTable [{ EnterpriseID := 0, FieldID := 150 }, { EnterpriseID := 0, FieldID := 210 }]
    ∧ (∀ k v, demoTable k = some v → k.EnterpriseID = 0 → k.FieldID ∉ exclusionSet → v.Name ≠ [])
    ∧ demoTable { EnterpriseID := 0, FieldID := 150 } = some flowStart
    ∧ 150 ∉ exclusionSet
    ∧ ∃ t1 e, reverseSynthesis demoTable
          [{ EnterpriseID := 0, FieldID := 150 }, { EnterpriseID := 0, FieldID := 210 }]
          = Run.done t1
        ∧ t1 { EnterpriseID := 29305, FieldID := 150 } = some e
        ∧ e = { flowStart with
                  Name := go "reverse" ++ ToUpper (flowStart.Name.take 1) ++ flowStart.Name.drop 1,
                  EnterpriseID := 29305 }
        ∧ e.FieldID = flowStart.FieldID ∧ e.Typ = flowStart.Typ ∧ e.EnterpriseID = 29305 :=
  ⟨demoTable_covers _, fun k v hv _ _ => demoTable_names k v hv, by decide, by decide,
    mirrored_entry_keeps_field_id_and_type demoTable _ (demoTable_covers _)
      (fun k v hv _ _ => demoTable_names k v hv) 150 flowStart (by decide) (by decide)⟩

/-- C10 (the code departs from the claim): for a record whose name is one
space the registration statement written carries the empty name; the table
these statements populate has an entry with the empty name at (0, 1), and
the reverse-synthesis loop panics there, at `v.Name[0:1]`. -/
theorem blank_name_makes_init_panic (FieldTypes : GoString → FieldType) :
    (registrationLoop blankNameRecords).map (fun s => s.Name) = [[]]
    ∧ ((execStatements FieldTypes Table.empty (registrationLoop blankNameRecords)).bind
          (fun t => t { EnterpriseID := 0, FieldID := 1 })).map (fun e => e.Name) = some []
    ∧ slice [] 0 1 = none
    ∧ (execStatements FieldTypes Table.empty (registrationLoop blankNameRecords)).map
          (fun t => (reverseSynthesis t [{ EnterpriseID := 0, FieldID := 1 }]).completed.isSome)
        = some false := by
  refine ⟨by decide, ?_, by decide, ?_⟩
  · have h : registrationLoop blankNameRecords
        = [{ FieldID := go "1", Name := [], Typ := go "unsigned8" }] := by decide
    rw [h]
    rfl
  · have h : registrationLoop blankNameRecords
        = [{ FieldID := go "1", Name := [], Typ := go "unsigned8" }] := by decide
    rw [h]
    rfl

end Rfc5102
